import Mathlib

/-!
Verification development for the Bayesian protein inference engine of
`src/openms/source/ANALYSIS/ID/BayesianProteinInferenceAlgorithm.cpp`.

The C++ code is shallowly embedded: doubles are modelled as rationals (the
claims under study concern control flow, index selection and parameter
plumbing, not floating-point rounding), the identification graph becomes an
explicit vertex/edge structure, and the per-connected-component functors
become Lean functions producing traces of observable events.
-/

namespace OpenMSBayes

/-! ## PMF tables and posterior extraction

A factor's marginal over one variable is a table together with a support
range; values outside `[first_support, last_support]` are implicitly zero.
This embeds the `PMF` class used at
`BayesianProteinInferenceAlgorithm.cpp:228-234` and `:378-383` (only the
first dimension of the support vectors is relevant there).
-/

structure PMFTable where
  first_support : Int
  last_support : Int
  table : List ℚ
deriving DecidableEq, Repr

/-- Posterior extraction of `GraphInferenceFunctor::operator()`
(`BayesianProteinInferenceAlgorithm.cpp:223-237`): `posterior` is
initialised to `1.0`; if `0 >= pmf.first_support()[0] && 0 <= pmf.last_support()[0]`
it becomes `1. - pmf.table()[0ul]` (literal index 0). -/
def extractPosteriorGraphFunctor (pmf : PMFTable) : ℚ :=
  if 0 ≥ pmf.first_support ∧ 0 ≤ pmf.last_support then
    1 - pmf.table.getD 0 0
  else
    1

/-- Posterior extraction of `ExtendedGraphInferenceFunctor::operator()`
(`BayesianProteinInferenceAlgorithm.cpp:373-386`): `posterior` is
initialised to `0.0`; if `1 >= pmf.first_support()[0] && 1 <= pmf.last_support()[0]`
it becomes `pmf.table()[1 - pmf.first_support()[0]]`. -/
def extractPosteriorExtendedFunctor (pmf : PMFTable) : ℚ :=
  if 1 ≥ pmf.first_support ∧ 1 ≤ pmf.last_support then
    pmf.table.getD (1 - pmf.first_support).toNat 0
  else
    0

/-- The extraction rule as worded by the specification (for comparison with
the code's two extraction functions): if the support includes 0 then
`P(x=1) = 1 - table[0 - first_support]`; else `table[1 - first_support]`
when 1 is in the support; else 0. -/
def specExtractPresenceProb (pmf : PMFTable) : ℚ :=
  if pmf.first_support ≤ 0 ∧ 0 ≤ pmf.last_support then
    1 - pmf.table.getD (0 - pmf.first_support).toNat 0
  else if pmf.first_support ≤ 1 ∧ 1 ≤ pmf.last_support then
    pmf.table.getD (1 - pmf.first_support).toNat 0
  else
    0

/-! ## Grid-axis candidate construction

Embeds `inferPosteriorProbabilities`
(`BayesianProteinInferenceAlgorithm.cpp:801-830`): each of the three model
parameters expands to a default sweep when outside `[0,1]` and collapses to
a singleton otherwise.
-/

/-- `gamma_search` construction (`BayesianProteinInferenceAlgorithm.cpp:807-814`). -/
def gammaSearch (gamma : ℚ) : List ℚ :=
  if gamma > 1 ∨ gamma < 0 then [1/2] else [gamma]

/-- `beta_search` construction (`BayesianProteinInferenceAlgorithm.cpp:815-822`). -/
def betaSearch (beta : ℚ) : List ℚ :=
  if beta > 1 ∨ beta < 0 then [1/1000] else [beta]

/-- `alpha_search` construction (`BayesianProteinInferenceAlgorithm.cpp:823-830`). -/
def alphaSearch (alpha : ℚ) : List ℚ :=
  if alpha > 1 ∨ alpha < 0 then [1/10, 3/10, 1/2, 7/10, 9/10] else [alpha]

/-! ## Identification graph

Modelled from the spec: the vertex variant of `IDBoostGraph` (declared
outside src/) carries a tagged union with discriminant `which`: 0 protein
(accession, mutable score, optional user prior in the meta entry "Prior"),
1 protein group (aggregate value), 2 peptide group (aggregate value),
6 PSM (score and evidence multiplicity). The functors in src/ dispatch on
exactly these `which` values.
-/

inductive VertexData where
  | prot (accession : String) (score : ℚ) (prior : ℚ)
  | protGroup (value : ℚ)
  | pepGroup (value : ℚ)
  | psm (score : ℚ) (multiplicity : Nat)
deriving DecidableEq, Repr

/-- The `which()` discriminant of the boost variant. -/
def VertexData.which : VertexData → Nat
  | .prot _ _ _ => 0
  | .protGroup _ => 1
  | .pepGroup _ => 2
  | .psm _ _ => 6

/-- A connected component handed to a per-CC functor: vertices indexed by
position, undirected edges. -/
structure CCGraph where
  vertices : List VertexData
  edges : List (Nat × Nat)
deriving DecidableEq, Repr

def CCGraph.vertexAt (cc : CCGraph) (u : Nat) : VertexData :=
  cc.vertices.getD u (VertexData.pepGroup 0)

def CCGraph.adjacent (cc : CCGraph) (u v : Nat) : Bool :=
  cc.edges.any (fun e => (e.1 == u && e.2 == v) || (e.1 == v && e.2 == u))

/-- Neighbors of `u` in vertex-iteration order (the embedding of
`boost::adjacent_vertices`). -/
def CCGraph.neighbors (cc : CCGraph) (u : Nat) : List Nat :=
  (List.range cc.vertices.length).filter (fun v => cc.adjacent u v)

/-- The gathered `in` vector of the inference functors
(`BayesianProteinInferenceAlgorithm.cpp:151-161`): neighbors whose `which`
is strictly lower than the `which` of `u`. -/
def CCGraph.inputNeighbors (cc : CCGraph) (u : Nat) : List Nat :=
  (cc.neighbors u).filter (fun v => (cc.vertexAt v).which < (cc.vertexAt u).which)

/-! ## Per-vertex factor construction of the inference functors -/

/-- Factors inserted into the `BetheInferenceGraphBuilder`. A
`proteinFactor` with `none` prior is `createProteinFactor(v)` (the factory
uses its configured gamma); with `some prior` it is the user-prior overload. -/
inductive Factor where
  | sumEvidence (multiplicity : Nat) (parent : Nat) (psm : Nat)
  | peptideEvidence (v : Nat) (score : ℚ)
  | probabilisticAdder (inputs : List Nat) (output : Nat)
  | proteinFactor (v : Nat) (prior : Option ℚ)
deriving DecidableEq, Repr

/-- The three boolean parameters read by `GraphInferenceFunctor::operator()`
(`BayesianProteinInferenceAlgorithm.cpp:112-114`). -/
structure InferenceConfig where
  update_PSM_probabilities : Bool
  annotate_group_posterior : Bool
  user_defined_priors : Bool
deriving DecidableEq, Repr

/-- The vertex dispatch of the inference functor loop
(`BayesianProteinInferenceAlgorithm.cpp:163-204`). Returns the factors
inserted for vertex `u` and the posterior-variable requests pushed for it.
`none` embeds the unguarded read `in[0]` on an empty input vector
(`std::vector::operator[]` out of bounds, line 169): undefined behavior,
not a thrown exception. -/
def processVertex (cc : CCGraph) (cfg : InferenceConfig) (u : Nat) :
    Option (List Factor × List Nat) :=
  match cc.vertexAt u with
  | VertexData.psm score multiplicity =>
    match (cc.inputNeighbors u).head? with
    | none => none
    | some parent =>
      some ([Factor.sumEvidence multiplicity parent u, Factor.peptideEvidence u score],
            if cfg.update_PSM_probabilities then [u] else [])
  | VertexData.pepGroup _ =>
      some ([Factor.probabilisticAdder (cc.inputNeighbors u) u], [])
  | VertexData.protGroup _ =>
      some ([Factor.probabilisticAdder (cc.inputNeighbors u) u],
            if cfg.annotate_group_posterior then [u] else [])
  | VertexData.prot _ _ prior =>
      some ([Factor.proteinFactor u (if cfg.user_defined_priors then some prior else none)],
            [u])

/-- The factor-construction loop over a list of vertex ids: left-to-right,
accumulating inserted factors and posterior requests; `none` as soon as any
vertex performs the out-of-bounds access. -/
def buildLoop (cc : CCGraph) (cfg : InferenceConfig) :
    List Nat → Option (List Factor × List Nat)
  | [] => some ([], [])
  | u :: us =>
    match processVertex cc cfg u, buildLoop cc cfg us with
    | some (fs, ps), some (fs2, ps2) => some (fs ++ fs2, ps ++ ps2)
    | _, _ => none

/-- The whole factor-construction loop of the functors
(`BayesianProteinInferenceAlgorithm.cpp:143-205`). -/
def buildFactorLoop (cc : CCGraph) (cfg : InferenceConfig) :
    Option (List Factor × List Nat) :=
  buildLoop cc cfg (List.range cc.vertices.length)

/-! ## Exceptions, events and the functor run model -/

/-- Modelled from the spec: the exception kinds of section 7. NumericError
and GraphShapeError are the recoverable per-CC failures raised by the
inference library (which lives outside src/); like every failure the library
signals with a message, they derive from `std::runtime_error`. A
`std::logic_error` or `std::bad_alloc` does not. -/
inductive ExcType where
  | numericError
  | graphShapeError
  | otherRuntimeError
  | logicError
  | badAlloc
deriving DecidableEq, BEq, Repr

/-- Whether the exception class derives from `std::runtime_error` (the only
handler type of the functors, `BayesianProteinInferenceAlgorithm.cpp:241`
and `:388`). -/
def derivesFromStdRuntimeError : ExcType → Bool
  | ExcType.numericError => true
  | ExcType.graphShapeError => true
  | ExcType.otherRuntimeError => true
  | ExcType.logicError => false
  | ExcType.badAlloc => false

/-- Where inside the try block an injected exception is raised: during
factor construction (before `bigb.to_graph()` has run, the ownership flag
still false) or during scheduling/inference (after `to_graph()`, the flag
true). -/
inductive ThrowPoint where
  | beforeToGraph
  | afterToGraph
deriving DecidableEq, BEq, Repr

structure FailureScenario where
  point : ThrowPoint
  exc : ExcType
deriving DecidableEq, BEq, Repr

/-- Observable events of a functor invocation. -/
inductive Event where
  | toGraphCall
  | warnLogged (msg : String)
  | posteriorsWritten
deriving DecidableEq, BEq, Repr

/-- Outcome of one functor invocation on one CC: a normal return (events and
the final vertex data), an exception escaping the functor, or undefined
behavior from the unguarded `in[0]` access. -/
inductive RunResult where
  | returned (events : List Event) (vertices : List VertexData)
  | propagated (events : List Event) (exc : ExcType) (vertices : List VertexData)
  | undefinedBehavior
deriving DecidableEq, BEq, Repr

def eventsOf : RunResult → List Event
  | RunResult.returned evs _ => evs
  | RunResult.propagated evs _ _ => evs
  | RunResult.undefinedBehavior => []

def verticesOf : RunResult → List VertexData
  | RunResult.returned _ vs => vs
  | RunResult.propagated _ _ vs => vs
  | RunResult.undefinedBehavior => []

def isReturned : RunResult → Bool
  | RunResult.returned _ _ => true
  | _ => false

def isPropagated : RunResult → Bool
  | RunResult.propagated _ _ _ => true
  | _ => false

def countToGraphCalls (evs : List Event) : Nat :=
  evs.count Event.toGraphCall

/-- Events of the try block observed up to the injected throw point. -/
def preEventsOf : ThrowPoint → List Event
  | ThrowPoint.beforeToGraph => []
  | ThrowPoint.afterToGraph => [Event.toGraphCall]

/-- The value of `graph_mp_ownership_acquired`
(`BayesianProteinInferenceAlgorithm.cpp:111,209`) at the moment the
injected exception reaches the catch block. -/
def ownershipAcquired : ThrowPoint → Bool
  | ThrowPoint.beforeToGraph => false
  | ThrowPoint.afterToGraph => true

/-- Modelled from the spec: `IDBoostGraph::SetPosteriorVisitor` (declared
outside src/) writes the extracted posterior into the data behind each
variant arm of a vertex. -/
def setPosteriorVisitor (posterior : ℚ) : VertexData → VertexData
  | VertexData.prot accession _ prior => VertexData.prot accession posterior prior
  | VertexData.protGroup _ => VertexData.protGroup posterior
  | VertexData.pepGroup _ => VertexData.pepGroup posterior
  | VertexData.psm _ multiplicity => VertexData.psm posterior multiplicity

/-- The posterior write-back loop (`BayesianProteinInferenceAlgorithm.cpp:223-237`):
for every requested variable, extract P(x=1) from its marginal PMF (supplied
by the inference engine, abstracted as `marginal`) and apply the visitor. -/
def writePosteriorsBack (extract : PMFTable → ℚ) (marginal : Nat → PMFTable)
    (posteriorVars : List Nat) (vs : List VertexData) : List VertexData :=
  posteriorVars.foldl
    (fun acc u =>
      acc.set u (setPosteriorVisitor (extract (marginal u))
        (acc.getD u (VertexData.pepGroup 0))))
    vs

/-- Warning text of `GraphInferenceFunctor` on a caught `std::runtime_error`
(`BayesianProteinInferenceAlgorithm.cpp:254-255`, the concatenation of the
two adjacent string literals). -/
def graphFunctorWarnMessage : String :=
  "Warning: Loopy belief propagation encountered a problem in a connected component. Skipping inference there."

/-- Warning text of `ExtendedGraphInferenceFunctor`
(`BayesianProteinInferenceAlgorithm.cpp:397-398`; the two adjacent literals
concatenate without a space). -/
def extendedFunctorWarnMessage : String :=
  "Warning: Loopy belief propagation encountered a problem in a connected component. Skippinginference there."

/-- One invocation of `GraphInferenceFunctor::operator()`
(`BayesianProteinInferenceAlgorithm.cpp:104-262`). CCs with fewer than 2
vertices are skipped before any builder exists. Otherwise the factor loop
runs (undefined behavior if a PSM has no input), then `to_graph()`,
scheduling, inference and write-back; an injected exception lands in the
`catch (const std::runtime_error&)` handler, which calls `to_graph()` only
when the ownership flag is still false and logs the warning; any other
exception type escapes the functor. -/
def runGraphInferenceFunctor (cc : CCGraph) (cfg : InferenceConfig)
    (marginal : Nat → PMFTable) (scenario : Option FailureScenario) : RunResult :=
  if 2 ≤ cc.vertices.length then
    match buildFactorLoop cc cfg with
    | none => RunResult.undefinedBehavior
    | some (_, posteriorVars) =>
      match scenario with
      | none =>
        RunResult.returned [Event.toGraphCall, Event.posteriorsWritten]
          (writePosteriorsBack extractPosteriorGraphFunctor marginal
            posteriorVars cc.vertices)
      | some s =>
        if derivesFromStdRuntimeError s.exc then
          RunResult.returned
            (preEventsOf s.point
              ++ (if ownershipAcquired s.point then [] else [Event.toGraphCall])
              ++ [Event.warnLogged graphFunctorWarnMessage])
            cc.vertices
        else
          RunResult.propagated (preEventsOf s.point) s.exc cc.vertices
  else
    RunResult.returned [] cc.vertices

/-- The posterior-request behavior implicit in
`ExtendedGraphInferenceFunctor::operator()`
(`BayesianProteinInferenceAlgorithm.cpp:336-356`): posteriors only for
protein vertices, no user priors. -/
def extendedLoopConfig : InferenceConfig :=
  { update_PSM_probabilities := false
    annotate_group_posterior := false
    user_defined_priors := false }

/-- One invocation of `ExtendedGraphInferenceFunctor::operator()`
(`BayesianProteinInferenceAlgorithm.cpp:276-407`). Differences from
`runGraphInferenceFunctor`: posterior extraction reads index 1, and the
catch block calls `bigb.to_graph()` unconditionally (line 396), with no
ownership flag. -/
def runExtendedGraphInferenceFunctor (cc : CCGraph) (marginal : Nat → PMFTable)
    (scenario : Option FailureScenario) : RunResult :=
  if 2 ≤ cc.vertices.length then
    match buildFactorLoop cc extendedLoopConfig with
    | none => RunResult.undefinedBehavior
    | some (_, posteriorVars) =>
      match scenario with
      | none =>
        RunResult.returned [Event.toGraphCall, Event.posteriorsWritten]
          (writePosteriorsBack extractPosteriorExtendedFunctor marginal
            posteriorVars cc.vertices)
      | some s =>
        if derivesFromStdRuntimeError s.exc then
          RunResult.returned
            (preEventsOf s.point
              ++ [Event.toGraphCall, Event.warnLogged extendedFunctorWarnMessage])
            cc.vertices
        else
          RunResult.propagated (preEventsOf s.point) s.exc cc.vertices
  else
    RunResult.returned [] cc.vertices

/-- Modelled from the spec: `IDBoostGraph::applyFunctorOnCCs` (declared
outside src/) applies the per-CC functor to every connected component. An
exception escaping a functor invocation, or undefined behavior inside one,
aborts the whole run (`none`); a normal return lets the driver continue with
the remaining CCs. -/
def applyFunctorOnCCs (runFunctor : CCGraph → Option FailureScenario → RunResult) :
    List (CCGraph × Option FailureScenario) → Option (List RunResult)
  | [] => some []
  | j :: rest =>
    match runFunctor j.1 j.2 with
    | RunResult.returned evs vs =>
      (applyFunctorOnCCs runFunctor rest).map (fun rs => RunResult.returned evs vs :: rs)
    | RunResult.propagated _ _ _ => none
    | RunResult.undefinedBehavior => none

/-- A job the per-CC error handling recovers from: the factor loop performs
no out-of-bounds access (whenever the CC is large enough for the builder to
exist), and any injected exception derives from `std::runtime_error`. -/
def recoverableJob (cfg : InferenceConfig) (j : CCGraph × Option FailureScenario) : Bool :=
  (j.1.vertices.length < 2 || (buildFactorLoop j.1 cfg).isSome)
    && j.2.all (fun s => derivesFromStdRuntimeError s.exc)

/-! ## Scheduler construction -/

/-- The three valid strings of `loopy_belief_propagation:scheduling_type`
(`BayesianProteinInferenceAlgorithm.cpp:519`). -/
inductive SchedulingType where
  | priority
  | fifo
  | random_spanning_tree
deriving DecidableEq, Repr

/-- The loopy-belief-propagation parameters read (or declared) around the
scheduler (`BayesianProteinInferenceAlgorithm.cpp:212-217` and `:513-537`). -/
structure LBPParams where
  scheduling_type : SchedulingType
  dampening_lambda : ℚ
  convergence_threshold : ℚ
  max_nr_iterations : Nat
deriving DecidableEq, Repr

/-- The scheduler both inference functors construct
(`BayesianProteinInferenceAlgorithm.cpp:212-217` and `:363-365`): a
`PriorityScheduler` built from the dampening, convergence-threshold and
max-iteration values. The `scheduling_type` parameter is never read on the
inference path (the `TODO parametrize the type of scheduler` comments at
lines 211 and 362). -/
def schedulerConstructed (_lbp : LBPParams) : SchedulingType :=
  SchedulingType.priority

/-! ## Indistinguishable-group annotation -/

/-- A protein-group record as appended to
`ProteinIdentification::getIndistinguishableProteins()`. -/
structure ProteinGroupRecord where
  accessions : List String
  probability : ℚ
deriving DecidableEq, Repr

/-- Accessions of the protein vertices adjacent to `u`, in neighbor
iteration order (`BayesianProteinInferenceAlgorithm.cpp:74-85`). -/
def adjacentProteinAccessions (cc : CCGraph) (u : Nat) : List String :=
  (cc.neighbors u).filterMap (fun v =>
    match cc.vertexAt v with
    | VertexData.prot accession _ _ => some accession
    | _ => none)

/-- The aggregate value stored in a protein-group vertex (the cast
`(double) boost::get<IDBoostGraph::ProteinGroup>(fg[*ui])` at line 73). -/
def groupValueAt (cc : CCGraph) (u : Nat) : ℚ :=
  match cc.vertexAt u with
  | VertexData.protGroup value => value
  | _ => 0

/-- The record `AnnotateIndistGroupsFunctor` builds for the protein-group
vertex `u`. -/
def groupRecordOf (cc : CCGraph) (u : Nat) : ProteinGroupRecord :=
  { accessions := adjacentProteinAccessions cc u
    probability := groupValueAt cc u }

/-- The loop body of `AnnotateIndistGroupsFunctor::operator()`
(`BayesianProteinInferenceAlgorithm.cpp:68-88`): append one record when the
vertex is a protein group (`which() == 1`), otherwise leave the list. -/
def annotateStep (cc : CCGraph) (acc : List ProteinGroupRecord) (u : Nat) :
    List ProteinGroupRecord :=
  match cc.vertexAt u with
  | VertexData.protGroup _ => acc ++ [groupRecordOf cc u]
  | _ => acc

/-- One invocation of `AnnotateIndistGroupsFunctor::operator()`
(`BayesianProteinInferenceAlgorithm.cpp:60-90`): on a CC with at least 2
vertices, walk the vertices in order and append one record per
protein-group vertex (`which() == 1`) to the accumulated list. -/
def annotateIndistGroupsFunctor (cc : CCGraph) (groups : List ProteinGroupRecord) :
    List ProteinGroupRecord :=
  if 2 ≤ cc.vertices.length then
    (List.range cc.vertices.length).foldl (annotateStep cc) groups
  else groups

/-- The protein-group vertices of a CC in iteration order. -/
def protGroupVertices (cc : CCGraph) : List Nat :=
  (List.range cc.vertices.length).filter (fun u => (cc.vertexAt u).which == 1)

/-- Modelled from the spec: `IDBoostGraph::applyFunctorOnCCsST` (declared
outside src/) is the single-threaded CC driver — it applies the functor to
the connected components sequentially, in CC iteration order. -/
def applyFunctorOnCCsST (ccs : List CCGraph) (groups : List ProteinGroupRecord) :
    List ProteinGroupRecord :=
  ccs.foldl (fun acc cc => annotateIndistGroupsFunctor cc acc) groups

/-! ## Grid search and the orchestrator -/

/-- The model parameters a grid-search evaluation sets
(`BayesianProteinInferenceAlgorithm.cpp:425-427`). -/
structure ModelParams where
  pep_emission : ℚ
  pep_spurious_emission : ℚ
  prot_prior : ℚ
deriving DecidableEq, Repr

/-- The two side-effect switches the orchestrator toggles around the grid
search (`BayesianProteinInferenceAlgorithm.cpp:839-843` and `:866-868`). -/
structure SideEffectFlags where
  update_PSM_probabilities : Bool
  annotate_group_probabilities : Bool
deriving DecidableEq, Repr

/-- One full inference pass over all CCs, as recorded by the orchestration
model: the model parameters and the side-effect flags in force when
`applyFunctorOnCCs(GraphInferenceFunctor(param_))` runs. -/
structure InferencePass where
  params : ModelParams
  flags : SideEffectFlags
deriving DecidableEq, Repr

/-- The parameter state of `inferPosteriorProbabilities` that the claims
concern. -/
structure AlgorithmParams where
  pep_emission : ℚ
  pep_spurious_emission : ℚ
  prot_prior : ℚ
  update_PSM_probabilities : Bool
  annotate_group_probabilities : Bool
deriving DecidableEq, Repr

/-- Modelled from the spec: `GridSearch::getNrCombos` (the `GridSearch`
template lives outside src/) — the number of points of the Cartesian grid. -/
def getNrCombos (alpha_search beta_search gamma_search : List ℚ) : Nat :=
  alpha_search.length * beta_search.length * gamma_search.length

/-- All index triples (alpha index, beta index, gamma index) of the grid. -/
def gridCombos (na nb ng : Nat) : List (Nat × Nat × Nat) :=
  (List.range na).flatMap (fun i =>
    (List.range nb).flatMap (fun j =>
      (List.range ng).map (fun k => (i, j, k))))

/-- Modelled from the spec: `GridSearch::evaluate` explores every (α,β,γ)
combination, invoking the evaluator — which runs inference on the shared
identification state and returns a goodness score
(`GridSearchEvaluator::operator()`, `BayesianProteinInferenceAlgorithm.cpp:422-431`)
— and tracks the argmax indices, starting from best value -1.0 and best
indices (0,0,0) as at lines 834 and 851. Returns the final state, the best
indices and the list of parameter tuples evaluated. -/
def gridSearchEvaluate {σ : Type} (runEval : ModelParams → σ → σ × ℚ)
    (alpha_search beta_search gamma_search : List ℚ) (s : σ) :
    σ × (Nat × Nat × Nat) × List ModelParams :=
  let out := (gridCombos alpha_search.length beta_search.length gamma_search.length).foldl
    (fun (acc : σ × ℚ × (Nat × Nat × Nat) × List ModelParams) ijk =>
      let p : ModelParams :=
        { pep_emission := alpha_search.getD ijk.1 0
          pep_spurious_emission := beta_search.getD ijk.2.1 0
          prot_prior := gamma_search.getD ijk.2.2 0 }
      let r := runEval p acc.1
      if acc.2.1 < r.2 then (r.1, r.2, ijk, acc.2.2.2 ++ [p])
      else (r.1, acc.2.1, acc.2.2.1, acc.2.2.2 ++ [p]))
    (s, -1, (0, 0, 0), [])
  (out.1, out.2.2.1, out.2.2.2)

/-- The grid-search and final-pass orchestration of
`inferPosteriorProbabilities` (`BayesianProteinInferenceAlgorithm.cpp:800-869`,
the `oldway` branch): build the three axes, save the two side-effect flags
and force them false, run the grid search only when the grid has more than
one combination, look up the best parameter values, restore the flags, and
run the final inference pass. `runPass` abstracts one
`applyFunctorOnCCs(GraphInferenceFunctor(param_))` sweep over the
identification state, `score` the FDR evaluation callback. Returns the
final state, the recorded passes (search passes then the final pass) and
whether the grid-search controller was invoked. -/
def inferPosteriorProbabilities {σ : Type}
    (runPass : ModelParams → SideEffectFlags → σ → σ)
    (score : σ → ℚ) (cfg : AlgorithmParams) (s : σ) :
    σ × List InferencePass × Bool :=
  let alpha_search := alphaSearch cfg.pep_emission
  let beta_search := betaSearch cfg.pep_spurious_emission
  let gamma_search := gammaSearch cfg.prot_prior
  let searchFlags : SideEffectFlags :=
    { update_PSM_probabilities := false, annotate_group_probabilities := false }
  let gridInvoked : Bool := decide (1 < getNrCombos alpha_search beta_search gamma_search)
  let searched :=
    if gridInvoked then
      gridSearchEvaluate
        (fun p st =>
          let st2 := runPass p searchFlags st
          (st2, score st2))
        alpha_search beta_search gamma_search s
    else
      (s, (0, 0, 0), [])
  let bestAlpha := alpha_search.getD searched.2.1.1 0
  let bestBeta := beta_search.getD searched.2.1.2.1 0
  let bestGamma := gamma_search.getD searched.2.1.2.2 0
  let finalFlags : SideEffectFlags :=
    { update_PSM_probabilities := cfg.update_PSM_probabilities
      annotate_group_probabilities := cfg.annotate_group_probabilities }
  let finalParams : ModelParams :=
    { pep_emission := bestAlpha
      pep_spurious_emission := bestBeta
      prot_prior := bestGamma }
  (runPass finalParams finalFlags searched.1,
   searched.2.2.map (fun p => InferencePass.mk p searchFlags) ++ [⟨finalParams, finalFlags⟩],
   gridInvoked)

/-! ## Concrete instances used by witnesses and counterexamples -/

/-- The default boolean parameters of the algorithm
(`BayesianProteinInferenceAlgorithm.cpp:467-481`): update_PSM_probabilities
true, annotate_group_probabilities true, user_defined_priors false. -/
def defaultConfig : InferenceConfig :=
  { update_PSM_probabilities := true
    annotate_group_posterior := true
    user_defined_priors := false }

/-- A marginal oracle assigning every variable the uniform Boolean PMF. -/
def trivialMarginal : Nat → PMFTable := fun _ =>
  { first_support := 0, last_support := 1, table := [1/2, 1/2] }

/-- A two-vertex CC: one protein connected to one PSM. -/
def ccProtPsm : CCGraph :=
  { vertices := [VertexData.prot "P1" (1/2) (1/2), VertexData.psm (9/10) 1]
    edges := [(0, 1)] }

/-- A CC whose last vertex is a PSM whose only neighbor is another PSM, so
its strictly-lower-which input list is empty. -/
def ccPsmNoInput : CCGraph :=
  { vertices := [VertexData.prot "P1" (1/2) (1/2), VertexData.psm (9/10) 1,
                 VertexData.psm (8/10) 1]
    edges := [(0, 1), (1, 2)] }

/-- A CC with two proteins joined to one protein-group vertex. -/
def ccGroups : CCGraph :=
  { vertices := [VertexData.prot "A" (1/2) 0, VertexData.prot "B" (1/2) 0,
                 VertexData.protGroup (4/5)]
    edges := [(0, 2), (1, 2)] }

/-- A concrete inference pass used by the orchestration witness: it records
every invocation in a list state. -/
def demoRunPass (p : ModelParams) (f : SideEffectFlags) (st : List InferencePass) :
    List InferencePass :=
  st ++ [⟨p, f⟩]

/-- A concrete fully-pinned parameter configuration (every model parameter
inside [0,1], so every grid axis is a singleton). -/
def demoCfg : AlgorithmParams :=
  { pep_emission := 1/2
    pep_spurious_emission := 1/100
    prot_prior := 3/5
    update_PSM_probabilities := true
    annotate_group_probabilities := false }

/-! ## Helper lemmas -/

lemma processVertex_eq_none_iff (cc : CCGraph) (cfg : InferenceConfig) (u : Nat) :
    processVertex cc cfg u = none ↔
      (cc.vertexAt u).which = 6 ∧ cc.inputNeighbors u = [] := by
  unfold processVertex
  cases h : cc.vertexAt u with
  | prot a s p => simp [h, VertexData.which]
  | protGroup v => simp [h, VertexData.which]
  | pepGroup v => simp [h, VertexData.which]
  | psm s m =>
    cases hh : (cc.inputNeighbors u).head? with
    | none => simp [h, hh, VertexData.which, List.head?_eq_none_iff.mp hh]
    | some p =>
      have hne : cc.inputNeighbors u ≠ [] := by
        intro he
        rw [he] at hh
        simp at hh
      simp [h, hh, VertexData.which, hne]

lemma buildLoop_eq_none_iff (cc : CCGraph) (cfg : InferenceConfig) (l : List Nat) :
    buildLoop cc cfg l = none ↔ ∃ u ∈ l, processVertex cc cfg u = none := by
  induction l with
  | nil => simp [buildLoop]
  | cons u us ih =>
    rw [buildLoop]
    cases h1 : processVertex cc cfg u with
    | none => simp [h1]
    | some r =>
      obtain ⟨fs, ps⟩ := r
      cases h2 : buildLoop cc cfg us with
      | none =>
        simp only [List.mem_cons]
        constructor
        · intro _
          obtain ⟨v, hv, hp⟩ := ih.mp h2
          exact ⟨v, Or.inr hv, hp⟩
        · intro _
          trivial
      | some r2 =>
        obtain ⟨fs2, ps2⟩ := r2
        simp only [List.mem_cons]
        constructor
        · intro h
          simp at h
        · rintro ⟨v, rfl | hv, hp⟩
          · rw [h1] at hp
            simp at hp
          · have hcontra := ih.mpr ⟨v, hv, hp⟩
            rw [h2] at hcontra
            simp at hcontra

lemma buildFactorLoop_none_iff (cc : CCGraph) (cfg : InferenceConfig) :
    buildFactorLoop cc cfg = none ↔
      ∃ u, u < cc.vertices.length ∧ (cc.vertexAt u).which = 6 ∧ cc.inputNeighbors u = [] := by
  rw [buildFactorLoop, buildLoop_eq_none_iff]
  constructor
  · rintro ⟨u, hu, hp⟩
    exact ⟨u, List.mem_range.mp hu, (processVertex_eq_none_iff cc cfg u).mp hp⟩
  · rintro ⟨u, hu, hp⟩
    exact ⟨u, List.mem_range.mpr hu, (processVertex_eq_none_iff cc cfg u).mpr hp⟩

lemma buildFactorLoop_none_config_indep (cc : CCGraph) (cfg cfg2 : InferenceConfig) :
    buildFactorLoop cc cfg = none ↔ buildFactorLoop cc cfg2 = none := by
  rw [buildFactorLoop_none_iff, buildFactorLoop_none_iff]

lemma processVertex_snd_which_zero (cc : CCGraph) (cfg : InferenceConfig) (u : Nat)
    (r : List Factor × List Nat)
    (hpsm : cfg.update_PSM_probabilities = false)
    (hgrp : cfg.annotate_group_posterior = false)
    (h : processVertex cc cfg u = some r) :
    ∀ x ∈ r.2, (cc.vertexAt x).which = 0 := by
  unfold processVertex at h
  cases hv : cc.vertexAt u with
  | prot a s p =>
    rw [hv] at h
    cases h
    intro x hx
    simp only [List.mem_singleton] at hx
    subst hx
    rw [hv]
    rfl
  | protGroup v =>
    rw [hv, hgrp] at h
    cases h
    intro x hx
    simp at hx
  | pepGroup v =>
    rw [hv] at h
    cases h
    intro x hx
    simp at hx
  | psm s m =>
    rw [hv, hpsm] at h
    cases hh : (cc.inputNeighbors u).head? with
    | none =>
      rw [hh] at h
      cases h
    | some p =>
      rw [hh] at h
      cases h
      intro x hx
      simp at hx

lemma buildLoop_posterior_which_zero (cc : CCGraph) (cfg : InferenceConfig)
    (hpsm : cfg.update_PSM_probabilities = false)
    (hgrp : cfg.annotate_group_posterior = false) :
    ∀ (l : List Nat) (r : List Factor × List Nat), buildLoop cc cfg l = some r →
      ∀ x ∈ r.2, (cc.vertexAt x).which = 0 := by
  intro l
  induction l with
  | nil =>
    intro r h x hx
    rw [buildLoop] at h
    cases h
    simp at hx
  | cons u us ih =>
    intro r h x hx
    rw [buildLoop] at h
    cases h1 : processVertex cc cfg u with
    | none =>
      rw [h1] at h
      simp at h
    | some r1 =>
      rw [h1] at h
      obtain ⟨fs, ps⟩ := r1
      cases h2 : buildLoop cc cfg us with
      | none =>
        rw [h2] at h
        simp at h
      | some r2 =>
        rw [h2] at h
        obtain ⟨fs2, ps2⟩ := r2
        cases h
        rcases List.mem_append.mp hx with hx1 | hx2
        · exact processVertex_snd_which_zero cc cfg u (fs, ps) hpsm hgrp h1 x hx1
        · exact ih (fs2, ps2) h2 x hx2

lemma setD_getD_ne (vs : List VertexData) (v u : Nat) (x d : VertexData) (h : v ≠ u) :
    (vs.set v x).getD u d = vs.getD u d := by
  rw [List.getD_eq_getElem?_getD, List.getD_eq_getElem?_getD, List.getElem?_set_ne h]

lemma writePosteriorsBack_getD_not_mem (extract : PMFTable → ℚ) (marginal : Nat → PMFTable)
    (ps : List Nat) (u : Nat) (hu : u ∉ ps) :
    ∀ vs : List VertexData,
      (writePosteriorsBack extract marginal ps vs).getD u (VertexData.pepGroup 0)
        = vs.getD u (VertexData.pepGroup 0) := by
  induction ps with
  | nil =>
    intro vs
    rfl
  | cons v ps ih =>
    intro vs
    have hvu : v ≠ u := fun h => hu (h ▸ List.mem_cons_self v ps)
    have hstep : writePosteriorsBack extract marginal (v :: ps) vs
        = writePosteriorsBack extract marginal ps
            (vs.set v (setPosteriorVisitor (extract (marginal v))
              (vs.getD v (VertexData.pepGroup 0)))) := rfl
    rw [hstep, ih (fun h => hu (List.mem_cons_of_mem _ h)), setD_getD_ne _ _ _ _ _ hvu]

lemma runGraphInferenceFunctor_returned (cc : CCGraph) (cfg : InferenceConfig)
    (marginal : Nat → PMFTable) (sc : Option FailureScenario)
    (hok : cc.vertices.length < 2 ∨ (buildFactorLoop cc cfg).isSome = true)
    (hsc : sc.all (fun s => derivesFromStdRuntimeError s.exc) = true) :
    ∃ evs vs, runGraphInferenceFunctor cc cfg marginal sc = RunResult.returned evs vs := by
  unfold runGraphInferenceFunctor
  by_cases h2 : 2 ≤ cc.vertices.length
  · rw [if_pos h2]
    have hsome : (buildFactorLoop cc cfg).isSome = true := by
      rcases hok with hlt | hs
      · omega
      · exact hs
    obtain ⟨⟨fs, ps⟩, hb⟩ := Option.isSome_iff_exists.mp hsome
    rw [hb]
    cases sc with
    | none => exact ⟨_, _, rfl⟩
    | some s =>
      have hd : derivesFromStdRuntimeError s.exc = true := by
        simpa [Option.all] using hsc
      simp only [hd, if_true]
      exact ⟨_, _, rfl⟩
  · rw [if_neg h2]
    exact ⟨_, _, rfl⟩

lemma applyFunctorOnCCs_total (cfg : InferenceConfig) (marginal : Nat → PMFTable)
    (jobs : List (CCGraph × Option FailureScenario))
    (h : ∀ j ∈ jobs, recoverableJob cfg j = true) :
    ∃ rs, applyFunctorOnCCs (fun c sc => runGraphInferenceFunctor c cfg marginal sc) jobs
        = some rs ∧ rs.length = jobs.length := by
  induction jobs with
  | nil => exact ⟨[], rfl, rfl⟩
  | cons j rest ih =>
    obtain ⟨rs, hrs, hlen⟩ := ih (fun x hx => h x (List.mem_cons_of_mem _ hx))
    have hj := h j (List.mem_cons_self _ _)
    rw [recoverableJob, Bool.and_eq_true, Bool.or_eq_true] at hj
    obtain ⟨hj1, hj2⟩ := hj
    have hok : j.1.vertices.length < 2 ∨ (buildFactorLoop j.1 cfg).isSome = true := by
      rcases hj1 with hlt | hs
      · exact Or.inl (by simpa using hlt)
      · exact Or.inr hs
    obtain ⟨evs, vs, hret⟩ := runGraphInferenceFunctor_returned j.1 cfg marginal j.2 hok hj2
    refine ⟨RunResult.returned evs vs :: rs, ?_, ?_⟩
    · rw [applyFunctorOnCCs, hret, hrs]
      rfl
    · simp [hlen]

lemma annotateStep_eq (cc : CCGraph) (acc : List ProteinGroupRecord) (u : Nat) :
    annotateStep cc acc u
      = if (cc.vertexAt u).which == 1 then acc ++ [groupRecordOf cc u] else acc := by
  unfold annotateStep
  cases hv : cc.vertexAt u <;> simp [VertexData.which]

lemma annotate_foldl_eq (cc : CCGraph) :
    ∀ (l : List Nat) (acc : List ProteinGroupRecord),
      l.foldl (annotateStep cc) acc
      = acc ++ (l.filter (fun u => (cc.vertexAt u).which == 1)).map (groupRecordOf cc)
  | [], acc => by simp
  | u :: us, acc => by
    rw [List.foldl_cons, List.filter_cons, annotateStep_eq]
    by_cases h : ((cc.vertexAt u).which == 1) = true
    · rw [if_pos h, if_pos h, annotate_foldl_eq cc us]
      simp
    · rw [if_neg h, if_neg h, annotate_foldl_eq cc us]

lemma alphaSearch_unit (a : ℚ) (h0 : 0 ≤ a) (h1 : a ≤ 1) : alphaSearch a = [a] := by
  unfold alphaSearch
  rw [if_neg]
  push_neg
  exact ⟨h1, h0⟩

lemma betaSearch_unit (b : ℚ) (h0 : 0 ≤ b) (h1 : b ≤ 1) : betaSearch b = [b] := by
  unfold betaSearch
  rw [if_neg]
  push_neg
  exact ⟨h1, h0⟩

lemma gammaSearch_unit (g : ℚ) (h0 : 0 ≤ g) (h1 : g ≤ 1) : gammaSearch g = [g] := by
  unfold gammaSearch
  rw [if_neg]
  push_neg
  exact ⟨h1, h0⟩

/-! ## Claim theorems -/

/-- C1, counterexample: the posterior-extraction rule claimed (0 in support
gives 1 − table[0 − first_support], else table[1 − first_support] when 1 is
in support, else 0) disagrees with both functors at concrete marginal PMFs:
`GraphInferenceFunctor` leaves its default 1.0 when 0 is not in the
support, and `ExtendedGraphInferenceFunctor` reads index 1 even when 0 is
in the support. -/
theorem c1_extraction_counterexample :
    extractPosteriorGraphFunctor ⟨1, 1, [3/4]⟩ ≠ specExtractPresenceProb ⟨1, 1, [3/4]⟩
  ∧ extractPosteriorExtendedFunctor ⟨0, 2, [1/2, 1/4, 1/4]⟩
      ≠ specExtractPresenceProb ⟨0, 2, [1/2, 1/4, 1/4]⟩ := by
  constructor
  · unfold extractPosteriorGraphFunctor specExtractPresenceProb
    norm_num [List.getD_cons_zero, List.getD_cons_succ]
  · unfold extractPosteriorExtendedFunctor specExtractPresenceProb
    norm_num [List.getD_cons_zero, List.getD_cons_succ]

/-- C1, amended: on a normalized PMF with support exactly {0,1} — the case
of the Boolean protein, group and PSM variables — both functors extract the
same value q = P(x=1) = 1 − table[0] = table[1], and that value agrees with
the two-branch rule of the specification; outside that case
`GraphInferenceFunctor` returns its initial 1.0 whenever 0 is below the
support, and `ExtendedGraphInferenceFunctor` returns its initial 0.0
whenever 1 is above the support, instead of following the two-branch rule. -/
theorem c1_extraction_amended (p q : ℚ) (h : p + q = 1) :
    extractPosteriorGraphFunctor ⟨0, 1, [p, q]⟩ = q
  ∧ extractPosteriorExtendedFunctor ⟨0, 1, [p, q]⟩ = q
  ∧ specExtractPresenceProb ⟨0, 1, [p, q]⟩ = q
  ∧ (∀ pmf : PMFTable, 0 < pmf.first_support → extractPosteriorGraphFunctor pmf = 1)
  ∧ (∀ pmf : PMFTable, pmf.last_support < 1 → extractPosteriorExtendedFunctor pmf = 0) := by
  refine ⟨?_, ?_, ?_, ?_, ?_⟩
  · unfold extractPosteriorGraphFunctor
    rw [if_pos (by constructor <;> norm_num)]
    simp only [List.getD]
    simp
    linarith
  · unfold extractPosteriorExtendedFunctor
    rw [if_pos (by constructor <;> norm_num)]
    norm_num
  · unfold specExtractPresenceProb
    rw [if_pos (by constructor <;> norm_num)]
    simp only [List.getD]
    simp
    linarith
  · intro pmf hp
    unfold extractPosteriorGraphFunctor
    rw [if_neg]
    rintro ⟨h0, -⟩
    omega
  · intro pmf hp
    unfold extractPosteriorExtendedFunctor
    rw [if_neg]
    rintro ⟨-, h1⟩
    omega

/-- C1 witness: the amended statement at the concrete normalized PMF
(1/4, 3/4). -/
theorem c1_extraction_witness :
    extractPosteriorGraphFunctor ⟨0, 1, [1/4, 3/4]⟩ = 3/4
  ∧ extractPosteriorExtendedFunctor ⟨0, 1, [1/4, 3/4]⟩ = 3/4
  ∧ specExtractPresenceProb ⟨0, 1, [1/4, 3/4]⟩ = 3/4
  ∧ (∀ pmf : PMFTable, 0 < pmf.first_support → extractPosteriorGraphFunctor pmf = 1)
  ∧ (∀ pmf : PMFTable, pmf.last_support < 1 → extractPosteriorExtendedFunctor pmf = 0) :=
  c1_extraction_amended (1/4) (3/4) (by norm_num)

/-- C2: the scheduling strategy used by the per-CC inference functors is a
`PriorityScheduler` no matter what `loopy_belief_propagation:scheduling_type`
selects — with fifo or random_spanning_tree configured (and the default
dampening 1e-3, threshold 1e-5 and iteration cap 2^31) the constructed
scheduler is still the priority one, so the claim fails on the code. -/
theorem c2_scheduling_type_ignored :
    schedulerConstructed ⟨SchedulingType.fifo, 1/1000, 1/100000, 2 ^ 31⟩
      = SchedulingType.priority
  ∧ schedulerConstructed ⟨SchedulingType.random_spanning_tree, 1/1000, 1/100000, 2 ^ 31⟩
      = SchedulingType.priority
  ∧ SchedulingType.priority ≠ SchedulingType.fifo := by
  refine ⟨rfl, rfl, by decide⟩

/-- C8: for each grid axis, a negative configured value yields the default
candidate sweep (alpha {0.1, 0.3, 0.5, 0.7, 0.9}, beta {0.001},
gamma {0.5}), and a configured value in [0,1] yields the singleton list
holding exactly that value. -/
theorem c8_axis_candidate_construction (x : ℚ) :
    (x < 0 →
        alphaSearch x = [1/10, 3/10, 1/2, 7/10, 9/10]
      ∧ betaSearch x = [1/1000]
      ∧ gammaSearch x = [1/2])
  ∧ (0 ≤ x → x ≤ 1 →
        alphaSearch x = [x] ∧ betaSearch x = [x] ∧ gammaSearch x = [x]) := by
  constructor
  · intro hx
    refine ⟨?_, ?_, ?_⟩
    · unfold alphaSearch
      rw [if_pos (Or.inr hx)]
    · unfold betaSearch
      rw [if_pos (Or.inr hx)]
    · unfold gammaSearch
      rw [if_pos (Or.inr hx)]
  · intro h0 h1
    exact ⟨alphaSearch_unit x h0 h1, betaSearch_unit x h0 h1, gammaSearch_unit x h0 h1⟩

/-- C8 witness: the axis construction evaluated at -1/2 (the default sweep)
and at 3/4 (a singleton). -/
theorem c8_axis_witness :
    alphaSearch (-1/2) = [1/10, 3/10, 1/2, 7/10, 9/10]
  ∧ alphaSearch (3/4) = [3/4] := by
  refine ⟨((c8_axis_candidate_construction (-1/2)).1 (by norm_num)).1, ?_⟩
  exact (((c8_axis_candidate_construction (3/4)).2 (by norm_num) (by norm_num))).1

/-- C3, counterexample: with an exception raised after the factor graph was
built (for example a NumericError during message passing), the catch block
of `ExtendedGraphInferenceFunctor` invokes `to_graph()` a second time on
the concrete protein-PSM component, so `to_graph` is not invoked exactly
once on every error path. -/
theorem c3_counterexample :
    countToGraphCalls (eventsOf (runExtendedGraphInferenceFunctor ccProtPsm trivialMarginal
        (some ⟨ThrowPoint.afterToGraph, ExcType.numericError⟩))) = 2
  ∧ countToGraphCalls (eventsOf (runExtendedGraphInferenceFunctor ccProtPsm trivialMarginal
        (some ⟨ThrowPoint.afterToGraph, ExcType.numericError⟩))) ≠ 1 := by
  have h2 : countToGraphCalls (eventsOf (runExtendedGraphInferenceFunctor ccProtPsm
      trivialMarginal (some ⟨ThrowPoint.afterToGraph, ExcType.numericError⟩))) = 2 := rfl
  exact ⟨h2, by rw [h2]; decide⟩

/-- C3, amended: on every CC the builder exists for (at least 2 vertices, no
out-of-bounds access in the factor loop), `GraphInferenceFunctor` invokes
`to_graph()` exactly once on the success path and on every caught-error
path (its catch block consults the ownership flag); while
`ExtendedGraphInferenceFunctor` invokes it exactly once only when the
runtime error arrives before the build — when the error arrives after the
build, its unconditional catch-block call makes it twice. -/
theorem c3_to_graph_calls (cc : CCGraph) (cfg : InferenceConfig) (marginal : Nat → PMFTable)
    (h2 : 2 ≤ cc.vertices.length)
    (hok : buildFactorLoop cc cfg ≠ none) :
    (∀ (sc : Option FailureScenario) (evs : List Event) (vs : List VertexData),
        runGraphInferenceFunctor cc cfg marginal sc = RunResult.returned evs vs →
        countToGraphCalls evs = 1)
  ∧ (∀ e : ExcType, derivesFromStdRuntimeError e = true →
        countToGraphCalls (eventsOf (runExtendedGraphInferenceFunctor cc marginal
          (some ⟨ThrowPoint.beforeToGraph, e⟩))) = 1
      ∧ countToGraphCalls (eventsOf (runExtendedGraphInferenceFunctor cc marginal
          (some ⟨ThrowPoint.afterToGraph, e⟩))) = 2) := by
  obtain ⟨⟨fs, ps⟩, hb⟩ := Option.ne_none_iff_exists'.mp hok
  have hbe : buildFactorLoop cc extendedLoopConfig ≠ none := fun hn =>
    hok ((buildFactorLoop_none_config_indep cc cfg extendedLoopConfig).mpr hn)
  obtain ⟨⟨fs2, ps2⟩, hb2⟩ := Option.ne_none_iff_exists'.mp hbe
  constructor
  · intro sc evs vs h
    cases sc with
    | none =>
      simp only [runGraphInferenceFunctor, hb, if_pos h2] at h
      cases h
      rfl
    | some s =>
      by_cases hd : derivesFromStdRuntimeError s.exc = true
      · simp only [runGraphInferenceFunctor, hb, if_pos h2] at h
        rw [if_pos hd] at h
        cases h
        cases hp : s.point <;> decide
      · simp only [runGraphInferenceFunctor, hb, if_pos h2] at h
        rw [if_neg hd] at h
        cases h
  · intro e hd
    constructor
    · simp only [runExtendedGraphInferenceFunctor, hb2, if_pos h2, hd, if_true, preEventsOf,
        List.nil_append]
      rfl
    · simp only [runExtendedGraphInferenceFunctor, hb2, if_pos h2, hd, if_true, preEventsOf,
        List.cons_append, List.nil_append]
      rfl

/-- C3 witness: the amended statement at the concrete protein-PSM component
with the default parameters. -/
theorem c3_to_graph_calls_witness :
    (∀ (sc : Option FailureScenario) (evs : List Event) (vs : List VertexData),
        runGraphInferenceFunctor ccProtPsm defaultConfig trivialMarginal sc
          = RunResult.returned evs vs →
        countToGraphCalls evs = 1)
  ∧ (∀ e : ExcType, derivesFromStdRuntimeError e = true →
        countToGraphCalls (eventsOf (runExtendedGraphInferenceFunctor ccProtPsm trivialMarginal
          (some ⟨ThrowPoint.beforeToGraph, e⟩))) = 1
      ∧ countToGraphCalls (eventsOf (runExtendedGraphInferenceFunctor ccProtPsm trivialMarginal
          (some ⟨ThrowPoint.afterToGraph, e⟩))) = 2) :=
  c3_to_graph_calls ccProtPsm defaultConfig trivialMarginal (by decide)
    (fun h => Option.noConfusion (id (show some _ = none from h)))

/-- C4, counterexample: the warning the functor logs is not the message the
claim quotes — the code emits the "Warning: Loopy belief propagation ..."
text, not "LBP encountered a problem in a connected component; skipping
inference there." -/
theorem c4_warning_text_counterexample :
    graphFunctorWarnMessage
      ≠ "LBP encountered a problem in a connected component; skipping inference there." := by
  decide

/-- C4, amended: on a NumericError or GraphShapeError (both
std::runtime_error subclasses), `GraphInferenceFunctor` catches the
exception internally, logs the warning "Warning: Loopy belief propagation
encountered a problem in a connected component. Skipping inference there.",
writes no posteriors — every vertex of the CC keeps its data — and returns;
and the CC driver completes every connected component of a job list whose
failures are all runtime errors, never aborting the run. -/
theorem c4_runtime_error_recovery (cc : CCGraph) (cfg : InferenceConfig)
    (marginal : Nat → PMFTable) (pt : ThrowPoint) (e : ExcType)
    (h2 : 2 ≤ cc.vertices.length)
    (hok : buildFactorLoop cc cfg ≠ none)
    (he : e = ExcType.numericError ∨ e = ExcType.graphShapeError) :
    (∃ evs, runGraphInferenceFunctor cc cfg marginal (some ⟨pt, e⟩)
        = RunResult.returned evs cc.vertices
      ∧ Event.warnLogged graphFunctorWarnMessage ∈ evs
      ∧ Event.posteriorsWritten ∉ evs)
  ∧ ∀ (jobs : List (CCGraph × Option FailureScenario)),
      (∀ j ∈ jobs, recoverableJob cfg j = true) →
      ∃ rs, applyFunctorOnCCs (fun c sc => runGraphInferenceFunctor c cfg marginal sc) jobs
          = some rs ∧ rs.length = jobs.length := by
  have hd : derivesFromStdRuntimeError e = true := by
    rcases he with rfl | rfl <;> rfl
  obtain ⟨⟨fs, ps⟩, hb⟩ := Option.ne_none_iff_exists'.mp hok
  constructor
  · refine ⟨preEventsOf pt ++ (if ownershipAcquired pt then [] else [Event.toGraphCall])
      ++ [Event.warnLogged graphFunctorWarnMessage], ?_, ?_, ?_⟩
    · simp only [runGraphInferenceFunctor, hb, if_pos h2]
      rw [if_pos hd]
    · simp
    · cases pt <;> simp [preEventsOf, ownershipAcquired]
  · exact fun jobs hj => applyFunctorOnCCs_total cfg marginal jobs hj

/-- C4 witness: the amended statement for a NumericError raised before the
build on the concrete protein-PSM component. -/
theorem c4_runtime_error_recovery_witness :
    (∃ evs, runGraphInferenceFunctor ccProtPsm defaultConfig trivialMarginal
          (some ⟨ThrowPoint.beforeToGraph, ExcType.numericError⟩)
        = RunResult.returned evs ccProtPsm.vertices
      ∧ Event.warnLogged graphFunctorWarnMessage ∈ evs
      ∧ Event.posteriorsWritten ∉ evs)
  ∧ ∀ (jobs : List (CCGraph × Option FailureScenario)),
      (∀ j ∈ jobs, recoverableJob defaultConfig j = true) →
      ∃ rs, applyFunctorOnCCs
          (fun c sc => runGraphInferenceFunctor c defaultConfig trivialMarginal sc) jobs
          = some rs ∧ rs.length = jobs.length :=
  c4_runtime_error_recovery ccProtPsm defaultConfig trivialMarginal ThrowPoint.beforeToGraph
    ExcType.numericError (by decide)
    (fun h => Option.noConfusion (id (show some _ = none from h)))
    (Or.inl rfl)

/-- C5, counterexample: on the concrete CC whose last vertex is a PSM with
only a PSM neighbor, the gathered input list is empty and the factor loop
performs the unguarded `in[0]` access: the invocation is undefined
behavior, not a caught recoverable error, and no warn-and-skip return
happens. -/
theorem c5_counterexample :
    buildFactorLoop ccPsmNoInput defaultConfig = none
  ∧ runGraphInferenceFunctor ccPsmNoInput defaultConfig trivialMarginal none
      = RunResult.undefinedBehavior
  ∧ isReturned (runGraphInferenceFunctor ccPsmNoInput defaultConfig trivialMarginal none)
      = false :=
  ⟨rfl, rfl, rfl⟩

/-- C5, amended: the access to the first element of the gathered input list
is not guarded — the factor-construction loop performs an out-of-bounds
access exactly when some PSM vertex has no strictly-lower-which neighbor,
and in that case the functor invocation is undefined behavior rather than a
recoverable GraphShapeError with a warn-and-skip; when every PSM vertex has
at least one input the loop completes without that access. -/
theorem c5_unguarded_input_access (cc : CCGraph) (cfg : InferenceConfig) :
    (buildFactorLoop cc cfg = none ↔
      ∃ u, u < cc.vertices.length ∧ (cc.vertexAt u).which = 6 ∧ cc.inputNeighbors u = [])
  ∧ ∀ (marginal : Nat → PMFTable) (sc : Option FailureScenario),
      2 ≤ cc.vertices.length → buildFactorLoop cc cfg = none →
      runGraphInferenceFunctor cc cfg marginal sc = RunResult.undefinedBehavior := by
  refine ⟨buildFactorLoop_none_iff cc cfg, ?_⟩
  intro marginal sc h2 hn
  simp only [runGraphInferenceFunctor, hn, if_pos h2]

/-- C10: both per-CC functors catch exactly the exceptions deriving from
std::runtime_error: a runtime-error exception produces a normal (caught)
return, while an exception of any other class escapes the functor,
propagating the very same exception to the CC driver. -/
theorem c10_only_runtime_errors_caught (cc : CCGraph) (cfg : InferenceConfig)
    (marginal : Nat → PMFTable) (pt : ThrowPoint) (e : ExcType)
    (h2 : 2 ≤ cc.vertices.length)
    (hok : buildFactorLoop cc cfg ≠ none) :
    (isReturned (runGraphInferenceFunctor cc cfg marginal (some ⟨pt, e⟩))
        = derivesFromStdRuntimeError e
      ∧ isReturned (runExtendedGraphInferenceFunctor cc marginal (some ⟨pt, e⟩))
        = derivesFromStdRuntimeError e)
  ∧ (derivesFromStdRuntimeError e = false →
        runGraphInferenceFunctor cc cfg marginal (some ⟨pt, e⟩)
          = RunResult.propagated (preEventsOf pt) e cc.vertices
      ∧ runExtendedGraphInferenceFunctor cc marginal (some ⟨pt, e⟩)
          = RunResult.propagated (preEventsOf pt) e cc.vertices) := by
  obtain ⟨⟨fs, ps⟩, hb⟩ := Option.ne_none_iff_exists'.mp hok
  have hbe : buildFactorLoop cc extendedLoopConfig ≠ none := fun hn =>
    hok ((buildFactorLoop_none_config_indep cc cfg extendedLoopConfig).mpr hn)
  obtain ⟨⟨fs2, ps2⟩, hb2⟩ := Option.ne_none_iff_exists'.mp hbe
  constructor
  · constructor
    · by_cases hd : derivesFromStdRuntimeError e = true
      · simp only [runGraphInferenceFunctor, hb, if_pos h2]
        rw [if_pos hd, hd]
        rfl
      · simp only [runGraphInferenceFunctor, hb, if_pos h2]
        rw [if_neg hd, Bool.eq_false_iff.mpr hd]
        rfl
    · by_cases hd : derivesFromStdRuntimeError e = true
      · simp only [runExtendedGraphInferenceFunctor, hb2, if_pos h2]
        rw [if_pos hd, hd]
        rfl
      · simp only [runExtendedGraphInferenceFunctor, hb2, if_pos h2]
        rw [if_neg hd, Bool.eq_false_iff.mpr hd]
        rfl
  · intro hd
    have hd2 : ¬ derivesFromStdRuntimeError e = true := by
      rw [hd]
      decide
    constructor
    · simp only [runGraphInferenceFunctor, hb, if_pos h2]
      rw [if_neg hd2]
    · simp only [runExtendedGraphInferenceFunctor, hb2, if_pos h2]
      rw [if_neg hd2]

/-- C10 witness: on the concrete protein-PSM component, a NumericError
(runtime error) after the build is caught while a std::logic_error is not. -/
theorem c10_only_runtime_errors_caught_witness :
    (isReturned (runGraphInferenceFunctor ccProtPsm defaultConfig trivialMarginal
          (some ⟨ThrowPoint.afterToGraph, ExcType.logicError⟩))
        = derivesFromStdRuntimeError ExcType.logicError
      ∧ isReturned (runExtendedGraphInferenceFunctor ccProtPsm trivialMarginal
          (some ⟨ThrowPoint.afterToGraph, ExcType.logicError⟩))
        = derivesFromStdRuntimeError ExcType.logicError)
  ∧ (derivesFromStdRuntimeError ExcType.logicError = false →
        runGraphInferenceFunctor ccProtPsm defaultConfig trivialMarginal
            (some ⟨ThrowPoint.afterToGraph, ExcType.logicError⟩)
          = RunResult.propagated (preEventsOf ThrowPoint.afterToGraph) ExcType.logicError
              ccProtPsm.vertices
      ∧ runExtendedGraphInferenceFunctor ccProtPsm trivialMarginal
            (some ⟨ThrowPoint.afterToGraph, ExcType.logicError⟩)
          = RunResult.propagated (preEventsOf ThrowPoint.afterToGraph) ExcType.logicError
              ccProtPsm.vertices) :=
  c10_only_runtime_errors_caught ccProtPsm defaultConfig trivialMarginal
    ThrowPoint.afterToGraph ExcType.logicError (by decide)
    (fun h => Option.noConfusion (id (show some _ = none from h)))

/-- C9: on every CC with at least 2 vertices the annotator appends, in
vertex-iteration order, exactly one record per protein-group vertex; its
accession list is exactly the accessions of the adjacent protein vertices
in neighbor order and its probability is the value currently stored in the
group vertex; the single-threaded driver threads the accumulated list
through the CCs in iteration order, so records of an earlier CC precede
those of every later one. -/
theorem c9_group_annotation (cc : CCGraph) (groups : List ProteinGroupRecord)
    (h2 : 2 ≤ cc.vertices.length) :
    annotateIndistGroupsFunctor cc groups
      = groups ++ (protGroupVertices cc).map (groupRecordOf cc)
  ∧ ∀ ccs : List CCGraph,
      applyFunctorOnCCsST (cc :: ccs) groups
        = applyFunctorOnCCsST ccs
            (groups ++ (protGroupVertices cc).map (groupRecordOf cc)) := by
  have main : annotateIndistGroupsFunctor cc groups
      = groups ++ (protGroupVertices cc).map (groupRecordOf cc) := by
    rw [annotateIndistGroupsFunctor, if_pos h2, annotate_foldl_eq, protGroupVertices]
  refine ⟨main, fun ccs => ?_⟩
  rw [show applyFunctorOnCCsST (cc :: ccs) groups
      = applyFunctorOnCCsST ccs (annotateIndistGroupsFunctor cc groups) from rfl, main]

/-- C9 witness: the annotation of the concrete two-protein one-group CC
appends exactly one record carrying both accessions and the stored group
value 4/5. -/
theorem c9_group_annotation_witness :
    annotateIndistGroupsFunctor ccGroups []
      = [] ++ (protGroupVertices ccGroups).map (groupRecordOf ccGroups)
  ∧ ∀ ccs : List CCGraph,
      applyFunctorOnCCsST (ccGroups :: ccs) []
        = applyFunctorOnCCsST ccs
            ([] ++ (protGroupVertices ccGroups).map (groupRecordOf ccGroups)) :=
  c9_group_annotation ccGroups [] (by decide)

/-- C6: when all three configured model parameters lie in [0,1] every grid
axis is a singleton, the grid is 1 by 1 by 1, the grid-search controller is
not invoked, and the orchestration performs exactly one inference pass — the
final one, at the configured (α, β, γ) with the caller-configured
side-effect flags — so its output state equals a direct inference run with
those parameter values. -/
theorem c6_degenerate_grid_neutrality {σ : Type}
    (runPass : ModelParams → SideEffectFlags → σ → σ) (score : σ → ℚ)
    (cfg : AlgorithmParams) (s : σ)
    (ha0 : 0 ≤ cfg.pep_emission) (ha1 : cfg.pep_emission ≤ 1)
    (hb0 : 0 ≤ cfg.pep_spurious_emission) (hb1 : cfg.pep_spurious_emission ≤ 1)
    (hg0 : 0 ≤ cfg.prot_prior) (hg1 : cfg.prot_prior ≤ 1) :
    inferPosteriorProbabilities runPass score cfg s
      = (runPass ⟨cfg.pep_emission, cfg.pep_spurious_emission, cfg.prot_prior⟩
            ⟨cfg.update_PSM_probabilities, cfg.annotate_group_probabilities⟩ s,
         [⟨⟨cfg.pep_emission, cfg.pep_spurious_emission, cfg.prot_prior⟩,
           ⟨cfg.update_PSM_probabilities, cfg.annotate_group_probabilities⟩⟩],
         false) := by
  have hA := alphaSearch_unit cfg.pep_emission ha0 ha1
  have hB := betaSearch_unit cfg.pep_spurious_emission hb0 hb1
  have hG := gammaSearch_unit cfg.prot_prior hg0 hg1
  simp [inferPosteriorProbabilities, hA, hB, hG, getNrCombos, List.getD]

/-- C6 witness: the degenerate-grid orchestration at the concrete pinned
configuration (α = 1/2, β = 1/100, γ = 3/5) equals the direct run. -/
theorem c6_degenerate_grid_witness :
    inferPosteriorProbabilities demoRunPass (fun _ => 0) demoCfg []
      = (demoRunPass ⟨demoCfg.pep_emission, demoCfg.pep_spurious_emission, demoCfg.prot_prior⟩
            ⟨demoCfg.update_PSM_probabilities, demoCfg.annotate_group_probabilities⟩ [],
         [⟨⟨demoCfg.pep_emission, demoCfg.pep_spurious_emission, demoCfg.prot_prior⟩,
           ⟨demoCfg.update_PSM_probabilities, demoCfg.annotate_group_probabilities⟩⟩],
         false) :=
  c6_degenerate_grid_neutrality demoRunPass (fun _ => 0) demoCfg []
    (by norm_num [demoCfg]) (by norm_num [demoCfg]) (by norm_num [demoCfg])
    (by norm_num [demoCfg]) (by norm_num [demoCfg]) (by norm_num [demoCfg])

/-- C7: every pass the orchestration records before the last one carries
both side-effect flags false (the grid-search evaluations), the last pass
carries exactly the caller-configured flags; and a functor run with both
flags false never changes the data of a PSM or protein-group vertex, so PSM
scores and group posteriors are written only by the final pass. -/
theorem c7_side_effects_only_final_pass {σ : Type}
    (runPass : ModelParams → SideEffectFlags → σ → σ) (score : σ → ℚ)
    (cfg : AlgorithmParams) (s : σ) :
    (∀ p ∈ (inferPosteriorProbabilities runPass score cfg s).2.1.dropLast,
        p.flags = ⟨false, false⟩)
  ∧ (∃ finalParams : ModelParams,
        (inferPosteriorProbabilities runPass score cfg s).2.1.getLast?
          = some ⟨finalParams,
              ⟨cfg.update_PSM_probabilities, cfg.annotate_group_probabilities⟩⟩)
  ∧ ∀ (cc : CCGraph) (marginal : Nat → PMFTable) (udp : Bool)
      (sc : Option FailureScenario) (u : Nat) (evs : List Event) (vs : List VertexData),
      ((cc.vertexAt u).which = 6 ∨ (cc.vertexAt u).which = 1) →
      runGraphInferenceFunctor cc ⟨false, false, udp⟩ marginal sc
        = RunResult.returned evs vs →
      vs.getD u (VertexData.pepGroup 0) = cc.vertices.getD u (VertexData.pepGroup 0) := by
  refine ⟨?_, ?_, ?_⟩
  · simp only [inferPosteriorProbabilities]
    rw [List.dropLast_concat]
    intro p hp
    obtain ⟨q, hq, rfl⟩ := List.mem_map.mp hp
    rfl
  · simp only [inferPosteriorProbabilities]
    exact ⟨_, List.getLast?_concat _⟩
  · intro cc marginal udp sc u evs vs hw hr
    by_cases h2 : 2 ≤ cc.vertices.length
    · cases hbl : buildFactorLoop cc ⟨false, false, udp⟩ with
      | none =>
        simp only [runGraphInferenceFunctor, hbl, if_pos h2] at hr
        cases hr
      | some r =>
        obtain ⟨fs, ps⟩ := r
        cases sc with
        | none =>
          simp only [runGraphInferenceFunctor, hbl, if_pos h2] at hr
          cases hr
          have hnotin : u ∉ ps := fun hu => by
            have h0 := buildLoop_posterior_which_zero cc ⟨false, false, udp⟩ rfl rfl
              (List.range cc.vertices.length) (fs, ps) hbl u hu
            rcases hw with hw | hw <;> omega
          exact writePosteriorsBack_getD_not_mem _ _ ps u hnotin cc.vertices
        | some fsc =>
          by_cases hd : derivesFromStdRuntimeError fsc.exc = true
          · simp only [runGraphInferenceFunctor, hbl, if_pos h2] at hr
            rw [if_pos hd] at hr
            cases hr
            rfl
          · simp only [runGraphInferenceFunctor, hbl, if_pos h2] at hr
            rw [if_neg hd] at hr
            cases hr
    · simp only [runGraphInferenceFunctor, if_neg h2] at hr
      cases hr
      rfl

end OpenMSBayes
